import Mathlib

set_option autoImplicit false

namespace StrawberryExample

/-!
Shallow embedding of `src/main.py`: a request-coalescing batch-load layer
(a strawberry `DataLoader` whose batch function groups `(filter, key)`
requests by filter value and performs one SQLAlchemy fetch per group against
a seeded SQLite store).

The store is modelled as the list of `book` rows in rowid order; executing a
select statement is filtering that list in order. Python dicts are modelled
as insertion-ordered association lists with value-equality keys (`BookFilter`
is a frozen strawberry input, so it hashes and compares by value).
-/

/-- A row of the `book` table (`BookModel` in the source): primary key `id`,
foreign key `author_id` into the `author` table, and a `title`. -/
structure BookModel where
  id : Nat
  author_id : Nat
  title : String
deriving DecidableEq

/-- The GraphQL output type `Book` (id and title only). -/
structure Book where
  id : Nat
  title : String
deriving DecidableEq

/-- The frozen input type `BookFilter`: a single text field `title`. A frozen
strawberry input compares and hashes by value, which the embedding mirrors by
structural decidable equality. -/
structure BookFilter where
  title : String
deriving DecidableEq

/-- Python dict lookup `m.get(k)` on an insertion-ordered association list. -/
def dictGet {α β : Type} [DecidableEq α] (k : α) : List (α × β) → Option β
  | [] => none
  | (k', v) :: rest => if k' = k then some v else dictGet k rest

/-- Python dict write `m[k] = v` on an insertion-ordered association list:
replaces the value in place when the key is present, appends otherwise. -/
def dictSet {α β : Type} [DecidableEq α] (k : α) (v : β) : List (α × β) → List (α × β)
  | [] => [(k, v)]
  | (k', v') :: rest => if k' = k then (k', v) :: rest else (k', v') :: dictSet k v rest

/-- Does `needle` occur at the head of `hay`? (helper for the ILIKE model). -/
def chars_start_of : List Char → List Char → Bool
  | [], _ => true
  | _ :: _, [] => false
  | a :: as, b :: bs => a == b && chars_start_of as bs

/-- Does `needle` occur contiguously anywhere in `hay`? -/
def chars_run_of (needle : List Char) : List Char → Bool
  | [] => needle.isEmpty
  | c :: cs => chars_start_of needle (c :: cs) || chars_run_of needle cs

/-- Lower-casing of a character sequence (`String.toLower`, written over the
underlying character list so that it reduces). -/
def lower_chars (cs : List Char) : List Char :=
  cs.map Char.toLower

/-- `title ILIKE '%needle%'` as the source issues it (line 78 builds the
pattern `f"%{where.title}%"`): a case-insensitive substring test. -/
def ilike_contains (text needle : String) : Bool :=
  chars_run_of (lower_chars needle.data) (lower_chars text.data)

/-- The seeded `book` table (source lines 48-55): SQLite assigns ids 1..10 in
insertion order; the i-th book (0-based) has title `"Book {i+1}"` and belongs
to author `i / 5 + 1`, so books 1-5 belong to author 1 and books 6-10 to
author 2. -/
def db_books : List BookModel :=
  (List.range 10).map (fun i =>
    { id := i + 1, author_id := i / 5 + 1, title := "Book " ++ toString (i + 1) })

/-- The statement of lines 76-80 run against `store` (rows returned in rowid
order, which for this seed is insertion order): select every book whose
primary key `id` is in `ids` — note: the book id column, not `author_id` —
and, when a filter is given, whose title matches `%filter.title%`
case-insensitively. -/
def execute_statement (store : List BookModel) (where_ : Option BookFilter)
    (ids : List Nat) : List BookModel :=
  store.filter (fun b =>
    ids.contains b.id &&
      match where_ with
      | none => true
      | some f => ilike_contains b.title f.title)

/-- One step of the accumulation loop of lines 83-88: `dict.get` followed by
Python truthiness (`if author_books:`) — a missing key or an empty list both
take the assignment branch `map[aid] = [book]`. -/
def author_books_step (m : List (Nat × List BookModel)) (book : BookModel) :
    List (Nat × List BookModel) :=
  match dictGet book.author_id m with
  | some author_books =>
      if author_books.isEmpty then dictSet book.author_id [book] m
      else dictSet book.author_id (author_books ++ [book]) m
  | none => dictSet book.author_id [book] m

/-- The `author_books_map` built by lines 82-88 from the fetched rows. -/
def author_books_fold (books : List BookModel) : List (Nat × List BookModel) :=
  books.foldl author_books_step []

/-- `load_author_books_batch` (lines 73-90), with the store made explicit. -/
def load_author_books_batch (store : List BookModel) (where_ : Option BookFilter)
    (ids : List Nat) : List (Nat × List BookModel) :=
  author_books_fold (execute_statement store where_ ids)

/-- One step of the grouping loop of lines 97-102 (the same get-then-truthiness
pattern as `author_books_step`). -/
def where_ids_step (m : List (Option BookFilter × List Nat))
    (p : Option BookFilter × Nat) : List (Option BookFilter × List Nat) :=
  match dictGet p.1 m with
  | some ids => if ids.isEmpty then dictSet p.1 [p.2] m else dictSet p.1 (ids ++ [p.2]) m
  | none => dictSet p.1 [p.2] m

/-- The `where_ids_map` of lines 96-102: the requested keys grouped by filter
value, groups in first-occurrence order. The dict comprehension of lines
104-107 makes exactly one `load_author_books_batch` call per entry of this
map, so its length is the number of Batch Executor invocations of the flush. -/
def where_ids_map (keys : List (Option BookFilter × Nat)) :
    List (Option BookFilter × List Nat) :=
  keys.foldl where_ids_step []

/-- The `where_author_books_map_map` of lines 104-107: one batch fetch per
group of `where_ids_map`. -/
def where_author_books_map_map (store : List BookModel)
    (keys : List (Option BookFilter × Nat)) :
    List (Option BookFilter × List (Nat × List BookModel)) :=
  (where_ids_map keys).map (fun p => (p.1, load_author_books_batch store p.1 p.2))

/-- The result lookup for one request (lines 109-111): the group map of the
request's own filter, then `.get(id, [])`. The outer filter key is always
present (the grouping put it there), so the outer `getD []` default is inert. -/
def request_result (store : List BookModel) (keys : List (Option BookFilter × Nat))
    (where_ : Option BookFilter) (id : Nat) : List BookModel :=
  (dictGet id ((dictGet where_ (where_author_books_map_map store keys)).getD [])).getD []

/-- `load_author_books` (lines 93-112): group the requests by filter, fetch
once per group, and map each request, in input order, to its group's result
converted to `Book`s (line 112). -/
def load_author_books (store : List BookModel) (keys : List (Option BookFilter × Nat)) :
    List (List Book) :=
  (keys.map (fun p => request_result store keys p.1 p.2)).map
    (fun batch => batch.map (fun b => ({ id := b.id, title := b.title } : Book)))

/-- Raised when the persistence store fetch fails (spec section 7: store
unavailable, connectivity, query error). -/
inductive BackendError where
  | backendError
deriving DecidableEq

/-- `load_author_books_batch` with the store access allowed to fail: `fetch`
stands for the statement execution of lines 76-80 (`session.execute`), which
may raise `BackendError`; the association loop of lines 82-88 runs only when
the fetch returned. -/
def load_author_books_batch_exc
    (fetch : Option BookFilter → List Nat → Except BackendError (List BookModel))
    (where_ : Option BookFilter) (ids : List Nat) :
    Except BackendError (List (Nat × List BookModel)) :=
  match fetch where_ ids with
  | .error e => .error e
  | .ok fetched => .ok (author_books_fold fetched)

/-- The dict comprehension of lines 104-107 under exceptions: the groups are
fetched in map order and the first raised `BackendError` aborts the whole
comprehension (Python exception semantics), so the remaining groups are not
fetched at all. -/
def run_batches
    (fetch : Option BookFilter → List Nat → Except BackendError (List BookModel)) :
    List (Option BookFilter × List Nat) →
    Except BackendError (List (Option BookFilter × List (Nat × List BookModel)))
  | [] => .ok []
  | (w, ids) :: rest =>
    match load_author_books_batch_exc fetch w ids with
    | .error e => .error e
    | .ok m =>
      match run_batches fetch rest with
      | .error e => .error e
      | .ok ms => .ok ((w, m) :: ms)

/-- `load_author_books` under exceptions: when any group's fetch raises, the
whole async batch function raises before line 109 runs, so no request of the
flush — whatever its group — resolves with a value; the `DataLoader` then
rejects every pending request of the flush with that error. -/
def load_author_books_exc
    (fetch : Option BookFilter → List Nat → Except BackendError (List BookModel))
    (keys : List (Option BookFilter × Nat)) : Except BackendError (List (List Book)) :=
  match run_batches fetch (where_ids_map keys) with
  | .error e => .error e
  | .ok wabm =>
    .ok ((keys.map (fun p => (dictGet p.2 ((dictGet p.1 wabm).getD [])).getD [])).map
      (fun batch => batch.map (fun b => ({ id := b.id, title := b.title } : Book))))

/-- Modelled from the spec: the state of the strawberry `DataLoader` (an
imported library, not part of src/) that line 115 instantiates once at module
scope — its per-instance memo cache from `(filter, key)` to the delivered
result, plus a count of batch fetches performed against the store. -/
structure LoaderState where
  cache : List ((Option BookFilter × Nat) × List Book)
  fetches : Nat
deriving DecidableEq

/-- Modelled from the spec: `DataLoader.load(key)` with its default cache —
"identical requests (same key + same filter) made multiple times within the
scope resolve from a single execution". A key already in the cache is answered
from the cache with no fetch; otherwise the batch function `load_author_books`
runs for it and the delivered result is cached. -/
def dataloader_load (store : List BookModel) (st : LoaderState)
    (key : Option BookFilter × Nat) : List Book × LoaderState :=
  match dictGet key st.cache with
  | some r => (r, st)
  | none =>
    let r := (load_author_books store [key]).headD []
    (r, { cache := dictSet key r st.cache, fetches := st.fetches + 1 })

/-- Modelled from the spec, for comparison with `load_author_books_batch`
(section 4.2, Batch Executor): "the full set of ChildRecords whose parent key
is in the set and that satisfy the filter" — the parent key being the book's
`author_id`. -/
def spec_batch_records (store : List BookModel) (where_ : Option BookFilter)
    (ids : List Nat) : List BookModel :=
  store.filter (fun b =>
    ids.contains b.author_id &&
      match where_ with
      | none => true
      | some f => ilike_contains b.title f.title)

/-- The key sequence a Python-dict fold accumulates: a key already present
keeps its place, a new key is appended at the end. Used to describe the keys
of `where_ids_map`. -/
def dedup_snoc {α : Type} [DecidableEq α] (acc : List α) : List α → List α
  | [] => acc
  | x :: xs => if x ∈ acc then dedup_snoc acc xs else dedup_snoc (acc ++ [x]) xs

/-- A store access that fails with `BackendError` exactly for the groups that
carry a filter, and answers from the seeded store otherwise: the concrete
scenario of the failure-isolation claim (group A = some filter, group B =
the absent filter). -/
def fetch_failing_A (where_ : Option BookFilter) (ids : List Nat) :
    Except BackendError (List BookModel) :=
  match where_ with
  | some _ => .error .backendError
  | none => .ok (execute_statement db_books none ids)

/-! Lemmas about the Python-dict model. -/

section DictLemmas

variable {α β : Type} [DecidableEq α]

theorem dictGet_dictSet_self (k : α) (v : β) (m : List (α × β)) :
    dictGet k (dictSet k v m) = some v := by
  induction m with
  | nil => simp [dictGet, dictSet]
  | cons p rest ih =>
    obtain ⟨k', v'⟩ := p
    by_cases h : k' = k <;> simp [dictGet, dictSet, h, ih]

theorem dictGet_dictSet_other (k k' : α) (v : β) (m : List (α × β)) (h : k ≠ k') :
    dictGet k' (dictSet k v m) = dictGet k' m := by
  have h' : ¬(k = k') := h
  induction m with
  | nil => simp [dictGet, dictSet, h']
  | cons p rest ih =>
    obtain ⟨k0, v0⟩ := p
    by_cases h0 : k0 = k
    · subst h0; simp [dictGet, dictSet, h']
    · by_cases h1 : k0 = k' <;> simp [dictGet, dictSet, h0, h1, Ne.symm h, ih]

theorem dictGet_isSome_iff_mem (k : α) (m : List (α × β)) :
    (dictGet k m).isSome ↔ k ∈ m.map Prod.fst := by
  induction m with
  | nil => simp [dictGet]
  | cons p rest ih =>
    obtain ⟨k', v'⟩ := p
    by_cases h : k' = k
    · simp [dictGet, h]
    · have h2 : ¬(k = k') := fun hh => h hh.symm
      simp [dictGet, h, h2, ih]

theorem dictSet_fst_of_mem (k : α) (v : β) (m : List (α × β))
    (h : k ∈ m.map Prod.fst) : (dictSet k v m).map Prod.fst = m.map Prod.fst := by
  induction m with
  | nil => simp at h
  | cons p rest ih =>
    obtain ⟨k', v'⟩ := p
    by_cases h0 : k' = k
    · simp [dictSet, h0]
    · have hk : k ∈ rest.map Prod.fst := by
        simp only [List.map_cons, List.mem_cons] at h
        rcases h with h1 | h1
        · exact absurd h1.symm h0
        · exact h1
      simp [dictSet, h0, ih hk]

theorem dictSet_fst_of_not_mem (k : α) (v : β) (m : List (α × β))
    (h : k ∉ m.map Prod.fst) : (dictSet k v m).map Prod.fst = m.map Prod.fst ++ [k] := by
  induction m with
  | nil => simp [dictSet]
  | cons p rest ih =>
    obtain ⟨k', v'⟩ := p
    have h1 : k' ≠ k := by
      intro h1; exact h (by simp [h1])
    have h2 : k ∉ rest.map Prod.fst := by
      intro h2; exact h (by simp [h2])
    simp [dictSet, h1, ih h2]

theorem dictSet_fst_nodup (k : α) (v : β) (m : List (α × β))
    (h : (m.map Prod.fst).Nodup) : ((dictSet k v m).map Prod.fst).Nodup := by
  by_cases hk : k ∈ m.map Prod.fst
  · rw [dictSet_fst_of_mem k v m hk]; exact h
  · rw [dictSet_fst_of_not_mem k v m hk]
    simp [List.nodup_append, h, hk]

theorem dictGet_of_mem_of_nodup (p : α × β) (m : List (α × β))
    (hnd : (m.map Prod.fst).Nodup) (hp : p ∈ m) : dictGet p.1 m = some p.2 := by
  induction m with
  | nil => simp at hp
  | cons q rest ih =>
    obtain ⟨k', v'⟩ := q
    rcases (List.mem_cons).mp hp with h | h
    · subst h; simp [dictGet]
    · have h1 : k' ≠ p.1 := by
        intro h1
        have : p.1 ∈ rest.map Prod.fst := List.mem_map_of_mem Prod.fst h
        rw [← h1] at this
        exact (List.nodup_cons.mp (by simpa using hnd)).1 this
      have h2 : (rest.map Prod.fst).Nodup := (List.nodup_cons.mp (by simpa using hnd)).2
      simp [dictGet, h1, ih h2 h]

end DictLemmas

/-! Lemmas about `dedup_snoc`. -/

theorem mem_dedup_snoc {α : Type} [DecidableEq α] (y : α) (l : List α) :
    ∀ acc, y ∈ dedup_snoc acc l ↔ y ∈ acc ∨ y ∈ l := by
  induction l with
  | nil => intro acc; simp [dedup_snoc]
  | cons x xs ih =>
    intro acc
    by_cases h : x ∈ acc
    · rw [dedup_snoc, if_pos h, ih]
      constructor
      · rintro (h1 | h1)
        · exact Or.inl h1
        · exact Or.inr (List.mem_cons_of_mem x h1)
      · rintro (h1 | h1)
        · exact Or.inl h1
        · rcases (List.mem_cons).mp h1 with h2 | h2
          · exact Or.inl (h2 ▸ h)
          · exact Or.inr h2
    · rw [dedup_snoc, if_neg h, ih]
      simp only [List.mem_append, List.mem_cons, List.mem_singleton]
      tauto

theorem dedup_snoc_nodup {α : Type} [DecidableEq α] (l : List α) :
    ∀ acc, acc.Nodup → (dedup_snoc acc l).Nodup := by
  induction l with
  | nil => intro acc h; exact h
  | cons x xs ih =>
    intro acc h
    by_cases hx : x ∈ acc
    · rw [dedup_snoc, if_pos hx]; exact ih acc h
    · rw [dedup_snoc, if_neg hx]
      exact ih _ (by simp [List.nodup_append, h, hx])

/-! Lemmas about the grouping stage `where_ids_map`. -/

theorem where_ids_step_fst (m : List (Option BookFilter × List Nat))
    (p : Option BookFilter × Nat) :
    (where_ids_step m p).map Prod.fst =
      if p.1 ∈ m.map Prod.fst then m.map Prod.fst else m.map Prod.fst ++ [p.1] := by
  unfold where_ids_step
  cases hg : dictGet p.1 m with
  | none =>
    have hmem : p.1 ∉ m.map Prod.fst := by
      rw [← dictGet_isSome_iff_mem]; simp [hg]
    simp [hmem, dictSet_fst_of_not_mem _ _ _ hmem]
  | some ids =>
    have hmem : p.1 ∈ m.map Prod.fst := by
      rw [← dictGet_isSome_iff_mem]; simp [hg]
    by_cases hne : ids.isEmpty <;> simp [hne, hmem, dictSet_fst_of_mem _ _ _ hmem]

theorem wim_fold_fst (ks : List (Option BookFilter × Nat)) :
    ∀ m : List (Option BookFilter × List Nat),
      (ks.foldl where_ids_step m).map Prod.fst =
        dedup_snoc (m.map Prod.fst) (ks.map Prod.fst) := by
  induction ks with
  | nil => intro m; rfl
  | cons p ks ih =>
    intro m
    rw [List.foldl_cons, ih, List.map_cons, where_ids_step_fst]
    by_cases h : p.1 ∈ m.map Prod.fst <;> simp [dedup_snoc, h]

theorem where_ids_step_get_other (m : List (Option BookFilter × List Nat))
    (p : Option BookFilter × Nat) (w : Option BookFilter) (h : p.1 ≠ w) :
    dictGet w (where_ids_step m p) = dictGet w m := by
  unfold where_ids_step
  cases hg : dictGet p.1 m with
  | none => exact dictGet_dictSet_other _ _ _ _ h
  | some ids =>
    by_cases hne : ids.isEmpty <;> simp [hne, dictGet_dictSet_other _ _ _ _ h]

theorem where_ids_step_get_self (m : List (Option BookFilter × List Nat))
    (p : Option BookFilter × Nat) :
    ∃ l, dictGet p.1 (where_ids_step m p) = some l ∧ p.2 ∈ l ∧
      ∀ ids, dictGet p.1 m = some ids → ∀ x ∈ ids, x ∈ l := by
  unfold where_ids_step
  cases hg : dictGet p.1 m with
  | none =>
    refine ⟨[p.2], dictGet_dictSet_self _ _ _, by simp, ?_⟩
    intro ids hids; simp at hids
  | some ids =>
    by_cases hne : ids.isEmpty
    · refine ⟨[p.2], by simp [hne, dictGet_dictSet_self], by simp, ?_⟩
      intro ids' hids'
      injection hids' with hids2
      subst hids2
      rw [List.isEmpty_iff] at hne
      subst hne
      intro x hx; cases hx
    · refine ⟨ids ++ [p.2], by simp [hne, dictGet_dictSet_self], by simp, ?_⟩
      intro ids' hids'
      injection hids' with hids2
      subst hids2
      intro x hx; exact List.mem_append_left _ hx

theorem wim_fold_get_mono (ks : List (Option BookFilter × Nat)) :
    ∀ (m : List (Option BookFilter × List Nat)) (w : Option BookFilter) (ids : List Nat),
      dictGet w m = some ids →
      ∃ ids', dictGet w (ks.foldl where_ids_step m) = some ids' ∧ ∀ x ∈ ids, x ∈ ids' := by
  induction ks with
  | nil => intro m w ids h; exact ⟨ids, h, fun x hx => hx⟩
  | cons p ks ih =>
    intro m w ids h
    by_cases hw : p.1 = w
    · subst hw
      obtain ⟨l, hl, _, hsub⟩ := where_ids_step_get_self m p
      obtain ⟨ids', hids', hsub'⟩ := ih (where_ids_step m p) p.1 l hl
      exact ⟨ids', by simpa using hids', fun x hx => hsub' x (hsub ids h x hx)⟩
    · have hstep : dictGet w (where_ids_step m p) = some ids := by
        rw [where_ids_step_get_other m p w hw]; exact h
      obtain ⟨ids', hids', hsub'⟩ := ih (where_ids_step m p) w ids hstep
      exact ⟨ids', by simpa using hids', hsub'⟩

theorem wim_fold_mem (ks : List (Option BookFilter × Nat)) :
    ∀ (m : List (Option BookFilter × List Nat)) (w : Option BookFilter) (id : Nat),
      (w, id) ∈ ks →
      ∃ ids, dictGet w (ks.foldl where_ids_step m) = some ids ∧ id ∈ ids := by
  induction ks with
  | nil => intro m w id h; cases h
  | cons p ks ih =>
    intro m w id h
    rcases (List.mem_cons).mp h with heq | hmem
    · subst heq
      obtain ⟨l, hl, hpl, _⟩ := where_ids_step_get_self m (w, id)
      obtain ⟨ids', hids', hsub'⟩ := wim_fold_get_mono ks (where_ids_step m (w, id)) w l hl
      exact ⟨ids', by simpa using hids', hsub' id hpl⟩
    · obtain ⟨ids, hids, hin⟩ := ih (where_ids_step m p) w id hmem
      exact ⟨ids, by simpa using hids, hin⟩

theorem wim_mem (keys : List (Option BookFilter × Nat)) (w : Option BookFilter)
    (id : Nat) (h : (w, id) ∈ keys) :
    ∃ ids, dictGet w (where_ids_map keys) = some ids ∧ id ∈ ids :=
  wim_fold_mem keys [] w id h

theorem wim_fst_sub (keys : List (Option BookFilter × Nat)) :
    ∀ g ∈ where_ids_map keys, g.1 ∈ keys.map Prod.fst := by
  intro g hg
  have h1 : (where_ids_map keys).map Prod.fst = dedup_snoc [] (keys.map Prod.fst) := by
    simpa using wim_fold_fst keys []
  have h2 : g.1 ∈ (where_ids_map keys).map Prod.fst := List.mem_map_of_mem Prod.fst hg
  rw [h1, mem_dedup_snoc] at h2
  simpa using h2

/-! Lemmas about the result association `author_books_fold`. -/

theorem author_books_step_get_other (m : List (Nat × List BookModel)) (b : BookModel)
    (a : Nat) (h : b.author_id ≠ a) :
    dictGet a (author_books_step m b) = dictGet a m := by
  unfold author_books_step
  cases hg : dictGet b.author_id m with
  | none => exact dictGet_dictSet_other _ _ _ _ h
  | some l =>
    by_cases hne : l.isEmpty <;> simp [hne, dictGet_dictSet_other _ _ _ _ h]

theorem author_books_fold_get (books : List BookModel) :
    ∀ a : Nat, dictGet a (author_books_fold books) =
      (if (books.filter (fun b => b.author_id == a)).isEmpty then none
       else some (books.filter (fun b => b.author_id == a))) := by
  induction books using List.reverseRecOn with
  | nil => intro a; simp [author_books_fold, dictGet]
  | append_singleton bs b ih =>
    intro a
    have hfold : author_books_fold (bs ++ [b]) =
        author_books_step (author_books_fold bs) b := by
      simp [author_books_fold, List.foldl_append]
    rw [hfold]
    by_cases hba : b.author_id = a
    · subst hba
      have hM := ih b.author_id
      by_cases hc : (bs.filter (fun x => x.author_id == b.author_id)).isEmpty
      · rw [if_pos hc] at hM
        have hstep : author_books_step (author_books_fold bs) b =
            dictSet b.author_id [b] (author_books_fold bs) := by
          simp [author_books_step, hM]
        rw [hstep, dictGet_dictSet_self]
        rw [List.isEmpty_iff] at hc
        rw [List.filter_append, hc]
        simp
      · rw [if_neg hc] at hM
        have hstep : author_books_step (author_books_fold bs) b =
            dictSet b.author_id
              (bs.filter (fun x => x.author_id == b.author_id) ++ [b])
              (author_books_fold bs) := by
          simp [author_books_step, hM, hc]
        rw [hstep, dictGet_dictSet_self, List.filter_append]
        have hne : bs.filter (fun x => x.author_id == b.author_id) ++
            List.filter (fun x => x.author_id == b.author_id) [b] ≠ [] := by
          simp
        simp [hne]
    · have hstep := author_books_step_get_other (author_books_fold bs) b a hba
      rw [hstep, ih a, List.filter_append]
      have hb : (b.author_id == a) = false := by simp [hba]
      simp [List.filter_cons, hb]

theorem author_books_step_fst_nodup (m : List (Nat × List BookModel)) (b : BookModel)
    (h : (m.map Prod.fst).Nodup) : ((author_books_step m b).map Prod.fst).Nodup := by
  unfold author_books_step
  cases hg : dictGet b.author_id m with
  | none => exact dictSet_fst_nodup _ _ _ h
  | some l =>
    by_cases hne : l.isEmpty <;> simp [hne] <;> exact dictSet_fst_nodup _ _ _ h

theorem author_books_fold_fst_nodup (books : List BookModel) :
    ((author_books_fold books).map Prod.fst).Nodup := by
  suffices h : ∀ (bs : List BookModel) (m : List (Nat × List BookModel)),
      (m.map Prod.fst).Nodup → ((bs.foldl author_books_step m).map Prod.fst).Nodup by
    simpa [author_books_fold] using h books [] (by simp)
  intro bs
  induction bs with
  | nil => intro m hm; exact hm
  | cons b bs ih => intro m hm; exact ih _ (author_books_step_fst_nodup m b hm)

/-! A lemma about exception propagation through the per-group fetch loop. -/

theorem run_batches_error_of_mem
    (fetch : Option BookFilter → List Nat → Except BackendError (List BookModel))
    (groups : List (Option BookFilter × List Nat)) (w : Option BookFilter)
    (ids : List Nat) (e : BackendError) (hmem : (w, ids) ∈ groups)
    (herr : fetch w ids = .error e) :
    ∃ e', run_batches fetch groups = .error e' := by
  induction groups with
  | nil => cases hmem
  | cons g rest ih =>
    rcases (List.mem_cons).mp hmem with heq | hmem'
    · subst heq
      exact ⟨e, by simp [run_batches, load_author_books_batch_exc, herr]⟩
    · obtain ⟨e', he'⟩ := ih hmem'
      obtain ⟨w0, ids0⟩ := g
      cases hb : load_author_books_batch_exc fetch w0 ids0 with
      | error e0 => exact ⟨e0, by simp [run_batches, hb]⟩
      | ok m => exact ⟨e', by simp [run_batches, hb, he']⟩

/-! The claims. -/

/-- Claim C1, evaluated at a failing input: the batch query of line 76 filters
by the book primary key `id` rather than by the parent key `author_id`, so for
the seeded store, the absent filter and the key set {1}, the executor returns
only the record whose own id is 1, while the set of records whose parent key
(author_id) is in {1} is the five books of author 1 — matching children of a
requested parent are omitted, against the claim. -/
theorem C1_batch_omits_children_of_requested_parent :
    ((dictGet 1 (load_author_books_batch db_books none [1])).getD []).map
        BookModel.id = [1] ∧
    (spec_batch_records db_books none [1]).map BookModel.id = [1, 2, 3, 4, 5] := by
  decide

/-- Claim C2, evaluated at the failing input: with the store seeded as in the
code, load with the absent filter and key 1 returns a single child — the book
titled "Book 1" — rather than the five children of parent 1 (the id-column bug
of line 76), while load with filter {title contains "1"} and key 1 does return
only the child titled "Book 1". -/
theorem C2_round_trip_returns_one_child :
    load_author_books db_books [(none, 1)] = [[{ id := 1, title := "Book 1" }]] ∧
    load_author_books db_books [(some { title := "1" }, 1)] =
      [[{ id := 1, title := "Book 1" }]] := by
  decide

/-- Claim C3 is false of the code: in the flush holding group A = filter
"Book", whose fetch fails, and group B = the absent filter, whose own fetch
succeeds (returning the book with id 2), the whole batch function raises, so
the request belonging to group B does not receive its normal result — the
failure is not confined to group A's requests. -/
theorem C3_counterexample_no_failure_isolation :
    fetch_failing_A none [2] =
      .ok [{ id := 2, author_id := 1, title := "Book 2" }] ∧
    load_author_books_exc fetch_failing_A [(some ⟨"Book"⟩, 1), (none, 2)] =
      .error .backendError :=
  ⟨rfl, rfl⟩

/-- Claim C3 amended: failures are not isolated per group — if the fetch of
any one group of the flush fails with `BackendError`, the whole batch function
raises, so every request of the flush, the requests of groups whose own fetch
succeeds included, receives the failure instead of its result. -/
theorem C3_amended_failure_reaches_whole_flush
    (fetch : Option BookFilter → List Nat → Except BackendError (List BookModel))
    (keys : List (Option BookFilter × Nat)) (w : Option BookFilter) (ids : List Nat)
    (e : BackendError) (hmem : (w, ids) ∈ where_ids_map keys)
    (herr : fetch w ids = .error e) :
    ∃ e', load_author_books_exc fetch keys = .error e' := by
  obtain ⟨e', he'⟩ := run_batches_error_of_mem fetch (where_ids_map keys) w ids e hmem herr
  exact ⟨e', by simp [load_author_books_exc, he']⟩

/-- Witness for the amended C3 at a concrete input: the two-group flush of the
counterexample fails as a whole. -/
theorem C3_amended_witness :
    ∃ e', load_author_books_exc fetch_failing_A [(some ⟨"Book"⟩, 1), (none, 2)] =
      .error e' :=
  C3_amended_failure_reaches_whole_flush fetch_failing_A
    [(some ⟨"Book"⟩, 1), (none, 2)] (some ⟨"Book"⟩) [1] .backendError
    (by decide) rfl

/-- Claim C4 is false of the code: the `DataLoader` of line 115 is created
once at module scope, so its memo cache survives every logical operation. A
first operation loading (absent filter, key 1) performs one fetch; a second,
separate operation loading the same pair goes through the same module-level
loader, is answered from its cache, and leaves the fetch count at 1 — it does
not trigger its own fetch against the store. -/
theorem C4_counterexample_cache_survives_operation :
    (dataloader_load db_books
      (dataloader_load db_books { cache := [], fetches := 0 } (none, 1)).2
      (none, 1)).2.fetches = 1 := by
  decide

/-- Claim C4 amended: memoization of (filter, key) results is confined to the
lifetime of the module-level loader, not to one logical operation — a repeated
load of the same (filter, key), inside the same operation or in any later one,
returns the cached result and leaves the loader state, its fetch count
included, unchanged. -/
theorem C4_amended_cache_is_loader_lifetime (store : List BookModel)
    (st : LoaderState) (key : Option BookFilter × Nat) :
    dataloader_load store (dataloader_load store st key).2 key =
      dataloader_load store st key := by
  cases h : dictGet key st.cache with
  | some r => simp [dataloader_load, h]
  | none => simp [dataloader_load, h, dictGet_dictSet_self]

/-- Claim C5: within one flush the number of Batch Executor invocations — one
per entry of `where_ids_map`, which is what the dict comprehension of lines
104-107 iterates over — equals the number of distinct filter values among the
requests, not the number of requests; in particular ten requests, six under
the absent filter and four under filter "Book", give exactly two executor
calls. -/
theorem C5_executor_calls_count_distinct_filters :
    (∀ keys : List (Option BookFilter × Nat),
      (where_ids_map keys).length = ((keys.map Prod.fst).toFinset).card) ∧
    (where_ids_map
      [(none, 1), (none, 2), (none, 3), (none, 4), (none, 5), (none, 6),
       (some ⟨"Book"⟩, 7), (some ⟨"Book"⟩, 8), (some ⟨"Book"⟩, 9),
       (some ⟨"Book"⟩, 10)]).length = 2 := by
  constructor
  · intro keys
    have h1 : (where_ids_map keys).map Prod.fst =
        dedup_snoc [] (keys.map Prod.fst) := by
      simpa using wim_fold_fst keys []
    have hnd : ((where_ids_map keys).map Prod.fst).Nodup := by
      rw [h1]; exact dedup_snoc_nodup _ [] List.nodup_nil
    have hfin : ((where_ids_map keys).map Prod.fst).toFinset =
        (keys.map Prod.fst).toFinset := by
      ext y
      simp [List.mem_toFinset, h1, mem_dedup_snoc]
    calc (where_ids_map keys).length
        = ((where_ids_map keys).map Prod.fst).length := (List.length_map _ _).symm
      _ = ((where_ids_map keys).map Prod.fst).toFinset.card :=
          (List.toFinset_card_of_nodup hnd).symm
      _ = ((keys.map Prod.fst).toFinset).card := by rw [hfin]
  · decide

/-- Claim C6: the output of `load_author_books` has exactly one entry per
request, in input order, and entry i is request i's key looked up in the group
mapping of that request's own filter; on the seeded store the input
[(absent, 1), ("Book", 2), (absent, 1)] gives a length-3 output whose entries
0 and 2 are equal. -/
theorem C6_order_and_length_preserved :
    (∀ (store : List BookModel) (keys : List (Option BookFilter × Nat)),
      (load_author_books store keys).length = keys.length) ∧
    (∀ (store : List BookModel) (keys : List (Option BookFilter × Nat)),
      load_author_books store keys =
        keys.map (fun p => (request_result store keys p.1 p.2).map
          (fun b => ({ id := b.id, title := b.title } : Book)))) ∧
    ((load_author_books db_books
        [(none, 1), (some ⟨"Book"⟩, 2), (none, 1)]).length = 3 ∧
      (load_author_books db_books [(none, 1), (some ⟨"Book"⟩, 2), (none, 1)])[0]? =
        (load_author_books db_books [(none, 1), (some ⟨"Book"⟩, 2), (none, 1)])[2]?) := by
  refine ⟨?_, ?_, by decide, by decide⟩
  · intro store keys
    simp [load_author_books]
  · intro store keys
    unfold load_author_books
    rw [List.map_map]
    rfl

/-- Claim C7: a requested key with no matching record in its filter group's
fetched mapping resolves to the empty list, delivered as a normal result:
whenever the group lookup for request i comes back `none`, output entry i is
`[]`. -/
theorem C7_missing_key_resolves_to_empty_list (store : List BookModel)
    (keys : List (Option BookFilter × Nat)) (i : Nat) (hi : i < keys.length)
    (hnone : dictGet (keys[i].2)
      ((dictGet (keys[i].1) (where_author_books_map_map store keys)).getD []) =
        none) :
    (load_author_books store keys)[i]? = some [] := by
  unfold load_author_books
  rw [List.map_map, List.getElem?_map, List.getElem?_eq_getElem hi]
  have hreq : request_result store keys (keys[i].1) (keys[i].2) = [] := by
    unfold request_result
    rw [hnone]
    rfl
  simp [Function.comp, hreq]

/-- Witness for C7 at a concrete input: requesting key 99, which has no
records, on the seeded store resolves to the empty list. -/
theorem C7_witness :
    (load_author_books db_books [((none : Option BookFilter), 99)])[0]? = some [] :=
  C7_missing_key_resolves_to_empty_list db_books [(none, 99)] 0 (by decide) (by decide)

/-- Claim C8: grouping is by value equality of the filter — any two requests
whose filter values are equal contribute their keys to the one group of
`where_ids_map` under that value — and every group's filter value is one of
the requests' filter values, passed through unchanged (no normalization). -/
theorem C8_groups_by_filter_value (keys : List (Option BookFilter × Nat))
    (w : Option BookFilter) (id1 id2 : Nat)
    (h1 : (w, id1) ∈ keys) (h2 : (w, id2) ∈ keys) :
    (∃ ids, dictGet w (where_ids_map keys) = some ids ∧ id1 ∈ ids ∧ id2 ∈ ids) ∧
    (∀ g ∈ where_ids_map keys, g.1 ∈ keys.map Prod.fst) := by
  constructor
  · obtain ⟨ids1, hids1, hin1⟩ := wim_mem keys w id1 h1
    obtain ⟨ids2, hids2, hin2⟩ := wim_mem keys w id2 h2
    rw [hids1] at hids2
    injection hids2 with h3
    exact ⟨ids1, hids1, hin1, h3 ▸ hin2⟩
  · exact wim_fst_sub keys

/-- Witness for C8 at a concrete input: two value-equal "Book" filters at keys
1 and 2 land in the single "Book" group. -/
theorem C8_witness :
    (∃ ids, dictGet (some (⟨"Book"⟩ : BookFilter))
        (where_ids_map [(some ⟨"Book"⟩, 1), (none, 3), (some ⟨"Book"⟩, 2)]) =
          some ids ∧ 1 ∈ ids ∧ 2 ∈ ids) ∧
    (∀ g ∈ where_ids_map [(some ⟨"Book"⟩, 1), (none, 3), (some ⟨"Book"⟩, 2)],
      g.1 ∈ [(some (⟨"Book"⟩ : BookFilter), 1), (none, 3),
        (some ⟨"Book"⟩, 2)].map Prod.fst) :=
  C8_groups_by_filter_value [(some ⟨"Book"⟩, 1), (none, 3), (some ⟨"Book"⟩, 2)]
    (some ⟨"Book"⟩) 1 2 (by decide) (by decide)

/-- Claim C9: the empty request list yields the empty result list, the group
map is empty, and the comprehension of lines 104-107 iterates over the empty
map, so zero Batch Executor invocations are performed. -/
theorem C9_empty_flush_no_fetch :
    (∀ store : List BookModel, load_author_books store [] = []) ∧
    where_ids_map [] = [] ∧
    (∀ store : List BookModel, where_author_books_map_map store [] = []) :=
  ⟨fun _ => rfl, rfl, fun _ => rfl⟩

/-- Claim C10: in the mapping `load_author_books_batch` returns, the list
stored under parent key a is exactly the fetched records whose author_id is a,
in store return order, and hence non-empty; key a is present iff some fetched
record carries author_id a; and every entry of the mapping has a non-empty
record list. -/
theorem C10_batch_map_values (store : List BookModel) (where_ : Option BookFilter)
    (ids : List Nat) (a : Nat) :
    (∀ l, dictGet a (load_author_books_batch store where_ ids) = some l →
      l = (execute_statement store where_ ids).filter (fun b => b.author_id == a) ∧
        l ≠ []) ∧
    ((dictGet a (load_author_books_batch store where_ ids)).isSome ↔
      ∃ b ∈ execute_statement store where_ ids, b.author_id = a) ∧
    (∀ p ∈ load_author_books_batch store where_ ids, p.2 ≠ []) := by
  have hget := author_books_fold_get (execute_statement store where_ ids)
  refine ⟨?_, ?_, ?_⟩
  · intro l hl
    unfold load_author_books_batch at hl
    rw [hget a] at hl
    by_cases hc : ((execute_statement store where_ ids).filter
        (fun b => b.author_id == a)).isEmpty
    · rw [if_pos hc] at hl; cases hl
    · rw [if_neg hc] at hl
      injection hl with hl2
      subst hl2
      refine ⟨rfl, ?_⟩
      intro hnil
      rw [hnil] at hc
      simp at hc
  · unfold load_author_books_batch
    rw [hget a]
    by_cases hc : ((execute_statement store where_ ids).filter
        (fun b => b.author_id == a)).isEmpty
    · rw [if_pos hc]
      rw [List.isEmpty_iff, List.filter_eq_nil_iff] at hc
      simp only [Option.isSome_none, Bool.false_eq_true, false_iff]
      rintro ⟨b, hb, hba⟩
      exact hc b hb (by simp [hba])
    · rw [if_neg hc]
      rw [List.isEmpty_iff] at hc
      simp only [Option.isSome_some, true_iff]
      obtain ⟨b, hb⟩ := List.exists_mem_of_ne_nil _ hc
      have hmf := List.mem_filter.mp hb
      exact ⟨b, hmf.1, by simpa using hmf.2⟩
  · intro p hp
    have hnd := author_books_fold_fst_nodup (execute_statement store where_ ids)
    unfold load_author_books_batch at hp
    have hdg := dictGet_of_mem_of_nodup p _ hnd hp
    rw [hget p.1] at hdg
    by_cases hc : ((execute_statement store where_ ids).filter
        (fun b => b.author_id == p.1)).isEmpty
    · rw [if_pos hc] at hdg; cases hdg
    · rw [if_neg hc] at hdg
      injection hdg with h2
      intro hnil
      rw [h2, hnil] at hc
      simp at hc

end StrawberryExample
